import Mathlib

/-!
# ISP hardware manager interface (`cam_isp_hw_mgr_intf.h`)

A shallow embedding of the interface header of the camera ISP hardware manager:
its capacity constants, its enumerations (with the integer value C gives each
enumerator), its configuration records (fixed-size arrays keep their length)
and the inline function `cam_isp_hw_evt_type_to_string`.

The header only declares the hardware manager. The operations that the
specification describes on top of it (acquire, stage, apply) are modelled from
the specification and marked as such.
-/

namespace CamIsp

/-! ## Capacity constants -/

/-- MAX IFE instance. -/
def CAM_IFE_HW_NUM_MAX : Nat := 8
/-- Maximum number of SFE instances. -/
def CAM_SFE_HW_NUM_MAX : Nat := 2
/-- Maximum number of RDI paths of an IFE. -/
def CAM_IFE_RDI_NUM_MAX : Nat := 4
/-- Maximum number of RDI paths of an SFE. -/
def CAM_SFE_RDI_NUM_MAX : Nat := 5
/-- Maximum number of TFE instances. -/
def CAM_TFE_HW_NUM_MAX : Nat := 3
/-- Maximum number of RDI paths of a TFE. -/
def CAM_TFE_RDI_NUM_MAX : Nat := 3

/-- Applicable vote paths for dual ife, based on no. of UAPI definitions. -/
def CAM_ISP_MAX_PER_PATH_VOTES : Nat := 40

/-- Maximum configuration entry size, based on the worst case DUAL IFE use case
plus some margin. -/
def CAM_ISP_CTX_CFG_MAX : Nat := 25

/-- Maximum configuration entry size including SFE and CSID, based on the worst
case DUAL IFE/SFE use case plus some margin. -/
def CAM_ISP_SFE_CTX_CFG_MAX : Nat := 40

/-! ## Enumerations -/

/-- Collection of the ISP hardware events (`enum cam_isp_hw_event_type`). -/
inductive cam_isp_hw_event_type where
  | CAM_ISP_HW_EVENT_ERROR
  | CAM_ISP_HW_EVENT_SOF
  | CAM_ISP_HW_EVENT_REG_UPDATE
  | CAM_ISP_HW_EVENT_EPOCH
  | CAM_ISP_HW_EVENT_EOF
  | CAM_ISP_HW_EVENT_DONE
  | CAM_ISP_HW_SECONDARY_EVENT
  | CAM_ISP_HW_EVENT_MAX
  deriving DecidableEq, Repr

namespace cam_isp_hw_event_type

/-- Integer value of each enumerator: none has an initialiser, so C numbers
them from 0 in declaration order. -/
def val : cam_isp_hw_event_type → Nat
  | CAM_ISP_HW_EVENT_ERROR => 0
  | CAM_ISP_HW_EVENT_SOF => 1
  | CAM_ISP_HW_EVENT_REG_UPDATE => 2
  | CAM_ISP_HW_EVENT_EPOCH => 3
  | CAM_ISP_HW_EVENT_EOF => 4
  | CAM_ISP_HW_EVENT_DONE => 5
  | CAM_ISP_HW_SECONDARY_EVENT => 6
  | CAM_ISP_HW_EVENT_MAX => 7

/-- Every enumerator of the declaration, in declaration order. -/
def enumerators : List cam_isp_hw_event_type :=
  [CAM_ISP_HW_EVENT_ERROR, CAM_ISP_HW_EVENT_SOF, CAM_ISP_HW_EVENT_REG_UPDATE,
   CAM_ISP_HW_EVENT_EPOCH, CAM_ISP_HW_EVENT_EOF, CAM_ISP_HW_EVENT_DONE,
   CAM_ISP_HW_SECONDARY_EVENT, CAM_ISP_HW_EVENT_MAX]

end cam_isp_hw_event_type

open cam_isp_hw_event_type in
/-- Convert cam_isp_hw_event_type to string for printing logs. The argument is
the raw integer a C caller passes; the `switch` compares it with the case
labels in order and falls to `default` when none matches. -/
def cam_isp_hw_evt_type_to_string (evt_type : Nat) : String :=
  if evt_type = CAM_ISP_HW_EVENT_ERROR.val then "ERROR"
  else if evt_type = CAM_ISP_HW_EVENT_SOF.val then "SOF"
  else if evt_type = CAM_ISP_HW_EVENT_REG_UPDATE.val then "REG_UPDATE"
  else if evt_type = CAM_ISP_HW_EVENT_EPOCH.val then "EPOCH"
  else if evt_type = CAM_ISP_HW_EVENT_EOF.val then "EOF"
  else if evt_type = CAM_ISP_HW_EVENT_DONE.val then "BUF_DONE"
  else "INVALID_EVT"

/-- Collection of the ISP error types for ISP hardware event
CAM_ISP_HW_EVENT_ERROR (`enum cam_isp_hw_err_type`). -/
inductive cam_isp_hw_err_type where
  | CAM_ISP_HW_ERROR_NONE
  | CAM_ISP_HW_ERROR_OVERFLOW
  | CAM_ISP_HW_ERROR_P2I_ERROR
  | CAM_ISP_HW_ERROR_VIOLATION
  | CAM_ISP_HW_ERROR_BUSIF_OVERFLOW
  | CAM_ISP_HW_ERROR_CSID_FATAL
  | CAM_ISP_HW_ERROR_CSID_OUTPUT_FIFO_OVERFLOW
  | CAM_ISP_HW_ERROR_RECOVERY_OVERFLOW
  | CAM_ISP_HW_ERROR_CSID_FRAME_SIZE
  | CAM_ISP_HW_ERROR_CSID_LANE_FIFO_OVERFLOW
  | CAM_ISP_HW_ERROR_CSID_PKT_HDR_CORRUPTED
  | CAM_ISP_HW_ERROR_CSID_MISSING_PKT_HDR_DATA
  | CAM_ISP_HW_ERROR_CSID_SENSOR_SWITCH_ERROR
  | CAM_ISP_HW_ERROR_CSID_UNBOUNDED_FRAME
  | CAM_ISP_HW_ERROR_CSID_SENSOR_FRAME_DROP
  | CAM_ISP_HW_ERROR_CSID_MISSING_EOT
  | CAM_ISP_HW_ERROR_CSID_PKT_PAYLOAD_CORRUPTED
  deriving DecidableEq, Repr

namespace cam_isp_hw_err_type

/-- Integer value of each enumerator, as its initialiser gives it. -/
def val : cam_isp_hw_err_type → Nat
  | CAM_ISP_HW_ERROR_NONE => 0x00000001
  | CAM_ISP_HW_ERROR_OVERFLOW => 0x00000002
  | CAM_ISP_HW_ERROR_P2I_ERROR => 0x00000004
  | CAM_ISP_HW_ERROR_VIOLATION => 0x00000008
  | CAM_ISP_HW_ERROR_BUSIF_OVERFLOW => 0x00000010
  | CAM_ISP_HW_ERROR_CSID_FATAL => 0x00000020
  | CAM_ISP_HW_ERROR_CSID_OUTPUT_FIFO_OVERFLOW => 0x00000040
  | CAM_ISP_HW_ERROR_RECOVERY_OVERFLOW => 0x00000080
  | CAM_ISP_HW_ERROR_CSID_FRAME_SIZE => 0x00000100
  | CAM_ISP_HW_ERROR_CSID_LANE_FIFO_OVERFLOW => 0x00000200
  | CAM_ISP_HW_ERROR_CSID_PKT_HDR_CORRUPTED => 0x00000400
  | CAM_ISP_HW_ERROR_CSID_MISSING_PKT_HDR_DATA => 0x00000800
  | CAM_ISP_HW_ERROR_CSID_SENSOR_SWITCH_ERROR => 0x00001000
  | CAM_ISP_HW_ERROR_CSID_UNBOUNDED_FRAME => 0x00002000
  | CAM_ISP_HW_ERROR_CSID_SENSOR_FRAME_DROP => 0x00004000
  | CAM_ISP_HW_ERROR_CSID_MISSING_EOT => 0x00008000
  | CAM_ISP_HW_ERROR_CSID_PKT_PAYLOAD_CORRUPTED => 0x00010000

/-- Position of an enumerator in the declaration (0 for the first). -/
def pos : cam_isp_hw_err_type → Nat
  | CAM_ISP_HW_ERROR_NONE => 0
  | CAM_ISP_HW_ERROR_OVERFLOW => 1
  | CAM_ISP_HW_ERROR_P2I_ERROR => 2
  | CAM_ISP_HW_ERROR_VIOLATION => 3
  | CAM_ISP_HW_ERROR_BUSIF_OVERFLOW => 4
  | CAM_ISP_HW_ERROR_CSID_FATAL => 5
  | CAM_ISP_HW_ERROR_CSID_OUTPUT_FIFO_OVERFLOW => 6
  | CAM_ISP_HW_ERROR_RECOVERY_OVERFLOW => 7
  | CAM_ISP_HW_ERROR_CSID_FRAME_SIZE => 8
  | CAM_ISP_HW_ERROR_CSID_LANE_FIFO_OVERFLOW => 9
  | CAM_ISP_HW_ERROR_CSID_PKT_HDR_CORRUPTED => 10
  | CAM_ISP_HW_ERROR_CSID_MISSING_PKT_HDR_DATA => 11
  | CAM_ISP_HW_ERROR_CSID_SENSOR_SWITCH_ERROR => 12
  | CAM_ISP_HW_ERROR_CSID_UNBOUNDED_FRAME => 13
  | CAM_ISP_HW_ERROR_CSID_SENSOR_FRAME_DROP => 14
  | CAM_ISP_HW_ERROR_CSID_MISSING_EOT => 15
  | CAM_ISP_HW_ERROR_CSID_PKT_PAYLOAD_CORRUPTED => 16

end cam_isp_hw_err_type

/-- Event payload for CAM_HW_EVENT_ERROR (`struct cam_isp_hw_error_event_data`).
The `uint32_t` and `uint64_t` members hold naturals below `2 ^ 32` and
`2 ^ 64`. -/
structure cam_isp_hw_error_event_data where
  error_type : Nat
  error_code : Nat
  timestamp : Nat
  recovery_enabled : Bool
  enable_req_dump : Bool
  deriving DecidableEq, Repr

/-- The `error_type` word that carries the error kinds of `kinds`: the bitwise
OR (`|`) of their codes, accumulated from 0. -/
def err_type_or (kinds : List cam_isp_hw_err_type) : Nat :=
  kinds.foldl (fun acc k => acc ||| k.val) 0

/-- Test `error_type & kind`: the bit of `kind` is set in `error_type`. -/
def err_type_has (error_type : Nat) (kind : cam_isp_hw_err_type) : Bool :=
  error_type &&& kind.val != 0

/-- Hardware manager command type (`enum cam_isp_hw_mgr_command`). -/
inductive cam_isp_hw_mgr_command where
  | CAM_ISP_HW_MGR_CMD_IS_RDI_ONLY_CONTEXT
  | CAM_ISP_HW_MGR_CMD_PAUSE_HW
  | CAM_ISP_HW_MGR_CMD_RESUME_HW
  | CAM_ISP_HW_MGR_CMD_SOF_DEBUG
  | CAM_ISP_HW_MGR_CMD_CTX_TYPE
  | CAM_ISP_HW_MGR_GET_PACKET_OPCODE
  | CAM_ISP_HW_MGR_GET_LAST_CDM_DONE
  | CAM_ISP_HW_MGR_CMD_PROG_DEFAULT_CFG
  | CAM_ISP_HW_MGR_GET_SOF_TS
  | CAM_ISP_HW_MGR_DUMP_STREAM_INFO
  | CAM_ISP_HW_MGR_CMD_UPDATE_CLOCK
  | CAM_ISP_HW_MGR_GET_BUS_COMP_GROUP
  | CAM_ISP_HW_MGR_CMD_MAX
  deriving DecidableEq, Repr

namespace cam_isp_hw_mgr_command

/-- Integer value of each enumerator: none has an initialiser, so C numbers
them from 0 in declaration order. -/
def val : cam_isp_hw_mgr_command → Nat
  | CAM_ISP_HW_MGR_CMD_IS_RDI_ONLY_CONTEXT => 0
  | CAM_ISP_HW_MGR_CMD_PAUSE_HW => 1
  | CAM_ISP_HW_MGR_CMD_RESUME_HW => 2
  | CAM_ISP_HW_MGR_CMD_SOF_DEBUG => 3
  | CAM_ISP_HW_MGR_CMD_CTX_TYPE => 4
  | CAM_ISP_HW_MGR_GET_PACKET_OPCODE => 5
  | CAM_ISP_HW_MGR_GET_LAST_CDM_DONE => 6
  | CAM_ISP_HW_MGR_CMD_PROG_DEFAULT_CFG => 7
  | CAM_ISP_HW_MGR_GET_SOF_TS => 8
  | CAM_ISP_HW_MGR_DUMP_STREAM_INFO => 9
  | CAM_ISP_HW_MGR_CMD_UPDATE_CLOCK => 10
  | CAM_ISP_HW_MGR_GET_BUS_COMP_GROUP => 11
  | CAM_ISP_HW_MGR_CMD_MAX => 12

/-- The commands of the enumeration, in declaration order: every enumerator
but the closing bound `CAM_ISP_HW_MGR_CMD_MAX`. They are, in this order, the
RDI-only context check, pause, resume, SOF debug, context type, packet opcode,
last CDM done, program default config, SOF timestamp, dump stream info, update
clock and bus completion group. -/
def commands : List cam_isp_hw_mgr_command :=
  [CAM_ISP_HW_MGR_CMD_IS_RDI_ONLY_CONTEXT, CAM_ISP_HW_MGR_CMD_PAUSE_HW,
   CAM_ISP_HW_MGR_CMD_RESUME_HW, CAM_ISP_HW_MGR_CMD_SOF_DEBUG,
   CAM_ISP_HW_MGR_CMD_CTX_TYPE, CAM_ISP_HW_MGR_GET_PACKET_OPCODE,
   CAM_ISP_HW_MGR_GET_LAST_CDM_DONE, CAM_ISP_HW_MGR_CMD_PROG_DEFAULT_CFG,
   CAM_ISP_HW_MGR_GET_SOF_TS, CAM_ISP_HW_MGR_DUMP_STREAM_INFO,
   CAM_ISP_HW_MGR_CMD_UPDATE_CLOCK, CAM_ISP_HW_MGR_GET_BUS_COMP_GROUP]

end cam_isp_hw_mgr_command

/-! ## Configuration records -/

/-- A C array `T name[n]`: its elements, exactly `n` of them. -/
structure c_array (α : Type) (n : Nat) where
  elems : List α
  size_eq : elems.length = n

namespace c_array

/-- The element an index addresses, `none` when the index is outside the
array. -/
def get? {α : Type} {n : Nat} (a : c_array α n) (i : Nat) : Option α :=
  a.elems[i]?

/-- The array whose `n` elements all are `x`. -/
def fill {α : Type} (n : Nat) (x : α) : c_array α n :=
  ⟨List.replicate n x, List.length_replicate n x⟩

end c_array

/-- Clock configuration (`struct cam_isp_clock_config_internal`). All members
are `uint64_t`. -/
structure cam_isp_clock_config_internal where
  usage_type : Nat
  num_rdi : Nat
  left_pix_hz : Nat
  right_pix_hz : Nat
  rdi_hz : c_array Nat CAM_IFE_RDI_NUM_MAX

/-- Bandwidth configuration (`struct cam_isp_bw_config_internal_v2`). The
element type `struct cam_axi_per_path_bw_vote` is declared outside this header
and is the parameter `axi_vote`. -/
structure cam_isp_bw_config_internal_v2 (axi_vote : Type) where
  usage_type : Nat
  num_paths : Nat
  axi_path : c_array axi_vote CAM_ISP_MAX_PER_PATH_VOTES

/-- Internal bandwidth configuration (`struct cam_isp_bw_config_internal`).
The type `struct cam_isp_bw_vote` is declared outside this header and is the
parameter `bw_vote`. -/
structure cam_isp_bw_config_internal (bw_vote : Type) where
  usage_type : Nat
  num_rdi : Nat
  left_pix_vote : bw_vote
  right_pix_vote : bw_vote
  rdi_vote : c_array bw_vote CAM_IFE_RDI_NUM_MAX

/-- Bw/Clk config info (`struct cam_isp_bw_clk_config_info`). -/
structure cam_isp_bw_clk_config_info (bw_vote axi_vote : Type) where
  bw_config : cam_isp_bw_config_internal bw_vote
  bw_config_v2 : cam_isp_bw_config_internal_v2 axi_vote
  bw_config_valid : Bool
  ife_clock_config : cam_isp_clock_config_internal
  ife_clock_config_valid : Bool
  sfe_clock_config : cam_isp_clock_config_internal
  sfe_clock_config_valid : Bool

/-- A clock configuration that votes for `num_rdi` RDIs, every clock 0. -/
def clock_config_with_rdi (num_rdi : Nat) : cam_isp_clock_config_internal :=
  { usage_type := 0, num_rdi := num_rdi, left_pix_hz := 0, right_pix_hz := 0,
    rdi_hz := c_array.fill CAM_IFE_RDI_NUM_MAX 0 }

/-- A bandwidth and clock record with `num_paths` per-path votes, every other
member 0 and no valid flag set. -/
def bw_clk_config_with_paths (num_paths : Nat) : cam_isp_bw_clk_config_info Nat Nat :=
  { bw_config := { usage_type := 0, num_rdi := 0, left_pix_vote := 0, right_pix_vote := 0,
                   rdi_vote := c_array.fill CAM_IFE_RDI_NUM_MAX 0 },
    bw_config_v2 := { usage_type := 0, num_paths := num_paths,
                      axi_path := c_array.fill CAM_ISP_MAX_PER_PATH_VOTES 0 },
    bw_config_valid := false,
    ife_clock_config := clock_config_with_rdi 0,
    ife_clock_config_valid := false,
    sfe_clock_config := clock_config_with_rdi 0,
    sfe_clock_config_valid := false }

/-! ## Operations modelled from the specification

The header declares no acquire, stage or apply function. The definitions below
follow the specification of the hardware manager. -/

/-- Modelled from the spec: the result of an operation of the hardware manager.
The header has no status codes; the specification names the conditions
resource-exhausted (no free hardware-line instance at acquire time) and
capacity-exceeded (a vote with more paths than supported). -/
inductive hw_mgr_status where
  | ok
  | resource_exhausted
  | capacity_exceeded
  deriving DecidableEq, Repr

/-- Modelled from the spec: the hardware-line families of the glossary (IFE,
SFE and TFE), for which the header has no type. -/
inductive hw_family where
  | IFE
  | SFE
  | TFE
  deriving DecidableEq, Repr

/-- Maximum instance count of a family, from the constants of the header. -/
def hw_family.num_max : hw_family → Nat
  | .IFE => CAM_IFE_HW_NUM_MAX
  | .SFE => CAM_SFE_HW_NUM_MAX
  | .TFE => CAM_TFE_HW_NUM_MAX

/-- Modelled from the spec: the hardware manager's record of the hardware-line
instances that are bound, which the header does not declare. Per family, the
bound instances as pairs (instance index, owning context). -/
structure hw_mgr_state where
  bound : hw_family → List (Nat × Nat)

/-- Modelled from the spec: the state in which no instance is bound (every
binding Idle). -/
def hw_mgr_state.idle : hw_mgr_state :=
  { bound := fun _ => [] }

/-- Modelled from the spec: the number of concurrently bound hardware-line
instances of a family. -/
def hw_mgr_state.num_bound (st : hw_mgr_state) (fam : hw_family) : Nat :=
  (st.bound fam).length

/-- Modelled from the spec: the search of `acquire` for a free instance, the
lowest index below the family's maximum instance count that no binding of
`bound` holds. -/
def free_instance (fam : hw_family) (bound : List (Nat × Nat)) : Option Nat :=
  (List.range fam.num_max).find? (fun i => !(bound.map Prod.fst).contains i)

/-- Modelled from the spec: `acquire`, which is not in the header. It binds a
free hardware-line instance of the family to the context, and fails with
resource-exhausted, the state unchanged, if no instance is free. -/
def acquire (st : hw_mgr_state) (fam : hw_family) (ctx : Nat) : hw_mgr_status × hw_mgr_state :=
  match free_instance fam (st.bound fam) with
  | none => (.resource_exhausted, st)
  | some i => (.ok, { bound := Function.update st.bound fam ((i, ctx) :: st.bound fam) })

/-- Modelled from the spec: the state after a sequence of acquire calls, each
given as (family, context); a failed call leaves the state as it was. -/
def acquire_seq (st : hw_mgr_state) : List (hw_family × Nat) → hw_mgr_state
  | [] => st
  | (fam, ctx) :: calls => acquire_seq (acquire st fam ctx).2 calls

/-- Modelled from the spec: the per-context record of the Bandwidth/Clock
Admission Table, which the header does not declare. It holds the staged record,
whether a vote is pending in it (a vote was staged and has not been applied
since), and the active vote. -/
structure admission_ctx (bw_vote axi_vote : Type) where
  staged : cam_isp_bw_clk_config_info bw_vote axi_vote
  active : cam_isp_bw_clk_config_info bw_vote axi_vote
  vote_pending : Bool := false

/-- Modelled from the spec: clearing the valid flags of a record. The three
valid flags become false, every configuration member is kept. -/
def clear_valid {bw_vote axi_vote : Type} (c : cam_isp_bw_clk_config_info bw_vote axi_vote) :
    cam_isp_bw_clk_config_info bw_vote axi_vote :=
  { c with bw_config_valid := false, ife_clock_config_valid := false,
           sfe_clock_config_valid := false }

/-- Modelled from the spec: `stage(context, vote)`, which is not in the header.
It records the vote, as given and with the valid flags it comes with, as the
pending vote of the context. A vote whose per-path count exceeds the maximum
supported vote paths fails with capacity-exceeded and nothing is written. -/
def stage {bw_vote axi_vote : Type} (ctx : admission_ctx bw_vote axi_vote)
    (vote : cam_isp_bw_clk_config_info bw_vote axi_vote) :
    hw_mgr_status × admission_ctx bw_vote axi_vote :=
  if CAM_ISP_MAX_PER_PATH_VOTES < vote.bw_config_v2.num_paths then
    (.capacity_exceeded, ctx)
  else
    (.ok, { ctx with staged := vote, vote_pending := true })

/-- Modelled from the spec: `apply(context)`, which is not in the header. It
transfers the staged vote into the active configuration and clears the valid
flags of the staged record, after which no vote is pending; if no vote was
staged it changes nothing. -/
def apply {bw_vote axi_vote : Type} (ctx : admission_ctx bw_vote axi_vote) :
    admission_ctx bw_vote axi_vote :=
  if ctx.vote_pending then
    { staged := clear_valid ctx.staged, active := ctx.staged, vote_pending := false }
  else
    ctx

/-- A bandwidth and clock record with `num_paths` per-path votes of which only
the bandwidth vote is marked valid. -/
def bw_only_config_with_paths (num_paths : Nat) : cam_isp_bw_clk_config_info Nat Nat :=
  { bw_clk_config_with_paths num_paths with bw_config_valid := true }

/-- A bandwidth and clock record whose SFE clock configuration votes for
`CAM_SFE_RDI_NUM_MAX` RDIs, the most an SFE has. -/
def bw_clk_config_sfe_max_rdi : cam_isp_bw_clk_config_info Nat Nat :=
  { bw_clk_config_with_paths 0 with
    sfe_clock_config := clock_config_with_rdi CAM_SFE_RDI_NUM_MAX,
    sfe_clock_config_valid := true }

/-- Modelled from the spec: the bindings of a family are well formed when no
instance is bound twice (an instance is assigned to at most one context at a
time) and every bound index is below the family's maximum instance count. -/
def bound_ok (fam : hw_family) (bound : List (Nat × Nat)) : Prop :=
  (bound.map Prod.fst).Nodup ∧ ∀ i ∈ bound.map Prod.fst, i < fam.num_max

instance (fam : hw_family) (bound : List (Nat × Nat)) : Decidable (bound_ok fam bound) := by
  unfold bound_ok
  infer_instance

/-! ## Theorems -/

open cam_isp_hw_event_type in
/-- C3: `cam_isp_hw_evt_type_to_string` gives ERROR the name "ERROR", SOF
"SOF", REG_UPDATE "REG_UPDATE", EPOCH "EPOCH", EOF "EOF" and DONE "BUF_DONE";
it is total (every integer argument gets one of the seven names of the switch);
and on these six kinds the returned name determines the kind. -/
theorem evt_type_to_string_names :
    cam_isp_hw_evt_type_to_string CAM_ISP_HW_EVENT_ERROR.val = "ERROR" ∧
    cam_isp_hw_evt_type_to_string CAM_ISP_HW_EVENT_SOF.val = "SOF" ∧
    cam_isp_hw_evt_type_to_string CAM_ISP_HW_EVENT_REG_UPDATE.val = "REG_UPDATE" ∧
    cam_isp_hw_evt_type_to_string CAM_ISP_HW_EVENT_EPOCH.val = "EPOCH" ∧
    cam_isp_hw_evt_type_to_string CAM_ISP_HW_EVENT_EOF.val = "EOF" ∧
    cam_isp_hw_evt_type_to_string CAM_ISP_HW_EVENT_DONE.val = "BUF_DONE" ∧
    (∀ evt_type : Nat, cam_isp_hw_evt_type_to_string evt_type ∈
      ["ERROR", "SOF", "REG_UPDATE", "EPOCH", "EOF", "BUF_DONE", "INVALID_EVT"]) ∧
    (∀ a b : cam_isp_hw_event_type,
      a ∈ [CAM_ISP_HW_EVENT_ERROR, CAM_ISP_HW_EVENT_SOF, CAM_ISP_HW_EVENT_REG_UPDATE,
           CAM_ISP_HW_EVENT_EPOCH, CAM_ISP_HW_EVENT_EOF, CAM_ISP_HW_EVENT_DONE] →
      b ∈ [CAM_ISP_HW_EVENT_ERROR, CAM_ISP_HW_EVENT_SOF, CAM_ISP_HW_EVENT_REG_UPDATE,
           CAM_ISP_HW_EVENT_EPOCH, CAM_ISP_HW_EVENT_EOF, CAM_ISP_HW_EVENT_DONE] →
      cam_isp_hw_evt_type_to_string a.val = cam_isp_hw_evt_type_to_string b.val → a = b) := by
  refine ⟨rfl, rfl, rfl, rfl, rfl, rfl, ?_, ?_⟩
  · intro evt_type
    unfold cam_isp_hw_evt_type_to_string
    split_ifs <;> simp
  · intro a b ha hb
    cases a <;> cases b <;> first | (intro _; rfl) | (intro h; revert ha hb h; decide)

/-! ### Fixed-size arrays -/

/-- An index addresses an entry of a C array exactly when it is below the
declared length. -/
theorem c_array.get?_isSome_iff {α : Type} {n : Nat} (a : c_array α n) (i : Nat) :
    (a.get? i).isSome = true ↔ i < n := by
  have hlen := a.size_eq
  unfold c_array.get?
  constructor
  · intro h
    by_contra hlt
    have hle : a.elems.length ≤ i := by omega
    rw [List.getElem?_eq_none hle] at h
    exact Bool.noConfusion h
  · intro h
    have hlt : i < a.elems.length := by omega
    rw [List.getElem?_eq_getElem hlt]
    rfl

/-! ### Error kinds -/

/-- Every error code is the power of two of its position in the enumeration. -/
theorem err_type_val_eq_two_pow (k : cam_isp_hw_err_type) : k.val = 2 ^ k.pos := by
  cases k <;> rfl

/-- No two error kinds have the same position. -/
theorem err_type_pos_injective (a b : cam_isp_hw_err_type) (h : a.pos = b.pos) : a = b := by
  cases a <;> cases b <;> first | rfl | exact absurd h (by decide)

/-- Every position is below 17, the number of error kinds. -/
theorem err_type_pos_lt (k : cam_isp_hw_err_type) : k.pos < 17 := by
  cases k <;> decide

/-- Masking a word with a single bit is non-zero exactly when the word has that
bit. -/
theorem and_two_pow_bne_zero (m i : Nat) : (m &&& 2 ^ i != 0) = m.testBit i := by
  cases h : m.testBit i
  · have hz : m &&& 2 ^ i = 0 := by
      apply Nat.eq_of_testBit_eq
      intro j
      rw [Nat.testBit_and, Nat.testBit_two_pow, Nat.zero_testBit]
      by_cases hij : i = j
      · subst hij; simp [h]
      · simp [hij]
    simp [hz]
  · have hb : (m &&& 2 ^ i).testBit i = true := by
      rw [Nat.testBit_and, Nat.testBit_two_pow_self, h]; rfl
    have hne : m &&& 2 ^ i ≠ 0 := by
      intro h0; rw [h0, Nat.zero_testBit] at hb; exact Bool.noConfusion hb
    simpa using hne

/-- Testing an error kind in a word reads the bit at the position of the
kind. -/
theorem err_type_has_eq_testBit (w : Nat) (k : cam_isp_hw_err_type) :
    err_type_has w k = w.testBit k.pos := by
  unfold err_type_has
  rw [err_type_val_eq_two_pow, and_two_pow_bne_zero]

/-- Bit `i` of an accumulated OR: it was set in the accumulator, or it is the
bit of one of the kinds OR-ed in. -/
theorem foldl_or_testBit (kinds : List cam_isp_hw_err_type) (acc i : Nat) :
    (kinds.foldl (fun acc k => acc ||| k.val) acc).testBit i =
      (acc.testBit i || kinds.any (fun k => k.pos == i)) := by
  induction kinds generalizing acc with
  | nil => simp
  | cons k ks ih =>
    rw [List.foldl_cons, ih, Nat.testBit_lor, err_type_val_eq_two_pow, Nat.testBit_two_pow,
      List.any_cons, Bool.or_assoc]
    by_cases h : k.pos = i
    · simp [h]
    · have hb : (k.pos == i) = false := beq_eq_false_iff_ne.mpr h
      simp [h, hb]

/-- The OR of a set of error kinds has the bit of `k` exactly when `k` is in
the set. -/
theorem err_type_has_or_iff (kinds : List cam_isp_hw_err_type) (k : cam_isp_hw_err_type) :
    err_type_has (err_type_or kinds) k = true ↔ k ∈ kinds := by
  rw [err_type_has_eq_testBit, err_type_or, foldl_or_testBit]
  simp only [Nat.zero_testBit, Bool.false_or, List.any_eq_true, beq_iff_eq]
  constructor
  · rintro ⟨j, hj, hpos⟩
    rwa [← err_type_pos_injective j k hpos]
  · intro hk
    exact ⟨k, hk, rfl⟩

/-- The OR of error kinds fits the 17 low bits, hence the `uint32_t` member
`error_type`. -/
theorem err_type_or_lt (kinds : List cam_isp_hw_err_type) : err_type_or kinds < 2 ^ 17 := by
  apply Nat.lt_pow_two_of_testBit
  intro i hi
  rw [err_type_or, foldl_or_testBit]
  simp only [Nat.zero_testBit, Bool.false_or]
  rw [Bool.eq_false_iff]
  intro h
  obtain ⟨j, _, hj⟩ := List.any_eq_true.mp h
  have h1 := err_type_pos_lt j
  have h2 : j.pos = i := by simpa using hj
  omega

open cam_isp_hw_err_type in
/-- C1: the error kinds of `enum cam_isp_hw_err_type` form a lossless bitmask.
Every code is a single bit of a 32-bit word, no two kinds share a code or a
bit, and for every set of error kinds the OR of their codes has the bit of a
kind `k` set if and only if `k` is in the set; so does the `error_type` of an
Error event that carries this OR, and OVERFLOW together with P2I_ERROR gives a
word that has exactly these two kinds. -/
theorem err_type_bitmask_lossless :
    (∀ k : cam_isp_hw_err_type, ∃ i, i < 32 ∧ k.val = 2 ^ i) ∧
    (∀ a b : cam_isp_hw_err_type, a.val = b.val → a = b) ∧
    (∀ a b : cam_isp_hw_err_type, a ≠ b → a.val &&& b.val = 0) ∧
    (∀ (kinds : List cam_isp_hw_err_type) (k : cam_isp_hw_err_type),
      err_type_has (err_type_or kinds) k = true ↔ k ∈ kinds) ∧
    (∀ kinds : List cam_isp_hw_err_type, err_type_or kinds < 2 ^ 32) ∧
    (∀ (kinds : List cam_isp_hw_err_type) (e : cam_isp_hw_error_event_data),
      e.error_type = err_type_or kinds →
      ∀ k : cam_isp_hw_err_type, err_type_has e.error_type k = true ↔ k ∈ kinds) ∧
    err_type_or [CAM_ISP_HW_ERROR_OVERFLOW, CAM_ISP_HW_ERROR_P2I_ERROR] = 0x00000006 ∧
    (∀ k : cam_isp_hw_err_type, err_type_has 0x00000006 k = true ↔
      (k = CAM_ISP_HW_ERROR_OVERFLOW ∨ k = CAM_ISP_HW_ERROR_P2I_ERROR)) := by
  refine ⟨?_, ?_, ?_, err_type_has_or_iff, ?_, ?_, rfl, ?_⟩
  · intro k
    exact ⟨k.pos, Nat.lt_trans (err_type_pos_lt k) (by decide), err_type_val_eq_two_pow k⟩
  · intro a b
    cases a <;> cases b <;> first | (intro _; rfl) | (intro h; exact absurd h (by decide))
  · intro a b
    cases a <;> cases b <;> first | (intro _; rfl) | (intro h; exact absurd rfl h)
  · intro kinds
    exact Nat.lt_trans (err_type_or_lt kinds) (by decide)
  · intro kinds e he k
    rw [he]
    exact err_type_has_or_iff kinds k
  · intro k
    cases k <;> decide

open cam_isp_hw_err_type in
/-- C2, as the header has it: the word in which no bit is set is 0, the OR of
no error kind. No error kind is found in it and it is the code of no error
kind: `CAM_ISP_HW_ERROR_NONE` is the code 0x00000001, the single bit 0, which
is the OR of the kind NONE alone. The code of NONE is not the code of any other
error kind, does not contain the bit of any other kind, and no other kind
contains its bit. -/
theorem err_type_none_own_bit :
    err_type_or [] = 0 ∧
    (∀ k : cam_isp_hw_err_type, err_type_has (err_type_or []) k = false) ∧
    (∀ k : cam_isp_hw_err_type, k.val ≠ err_type_or []) ∧
    CAM_ISP_HW_ERROR_NONE.val = 0x00000001 ∧
    err_type_or [CAM_ISP_HW_ERROR_NONE] = CAM_ISP_HW_ERROR_NONE.val ∧
    (∀ k : cam_isp_hw_err_type, k ≠ CAM_ISP_HW_ERROR_NONE →
      k.val ≠ CAM_ISP_HW_ERROR_NONE.val ∧
      err_type_has CAM_ISP_HW_ERROR_NONE.val k = false ∧
      err_type_has k.val CAM_ISP_HW_ERROR_NONE = false) := by
  refine ⟨rfl, ?_, ?_, rfl, rfl, ?_⟩
  · intro k
    cases k <;> rfl
  · intro k
    cases k <;> decide
  · intro k
    cases k <;> first | (intro h; exact absurd rfl h) | (intro _; decide)

open cam_isp_hw_err_type in
/-- C2 as stated fails: the error-kind value in which no error bit is set, the
OR of no error kind, is 0, and it is not `CAM_ISP_HW_ERROR_NONE`, which is 1
and has a bit of its own set. -/
theorem err_type_no_bit_is_not_none :
    err_type_or [] ≠ CAM_ISP_HW_ERROR_NONE.val ∧
    err_type_has (err_type_or []) CAM_ISP_HW_ERROR_NONE = false ∧
    err_type_has CAM_ISP_HW_ERROR_NONE.val CAM_ISP_HW_ERROR_NONE = true := by
  decide

/-- C4: the configuration entry list is bounded by a fixed maximum, 25 for the
base case and 40 when SFE and CSID are included; the extended bound is at least
the base bound, so an entry count admissible for the base case is admissible
for the extended case. -/
theorem ctx_cfg_max_bounds (n : Nat) (h : n ≤ CAM_ISP_CTX_CFG_MAX) :
    CAM_ISP_CTX_CFG_MAX = 25 ∧ CAM_ISP_SFE_CTX_CFG_MAX = 40 ∧
    CAM_ISP_CTX_CFG_MAX ≤ CAM_ISP_SFE_CTX_CFG_MAX ∧ n ≤ CAM_ISP_SFE_CTX_CFG_MAX := by
  refine ⟨rfl, rfl, by decide, ?_⟩
  have h1 : CAM_ISP_CTX_CFG_MAX ≤ CAM_ISP_SFE_CTX_CFG_MAX := by decide
  exact Nat.le_trans h h1

/-- C4 at the largest base entry count, 25. -/
theorem ctx_cfg_max_bounds_witness :
    (25 : Nat) ≤ CAM_ISP_CTX_CFG_MAX ∧
    (CAM_ISP_CTX_CFG_MAX = 25 ∧ CAM_ISP_SFE_CTX_CFG_MAX = 40 ∧
     CAM_ISP_CTX_CFG_MAX ≤ CAM_ISP_SFE_CTX_CFG_MAX ∧ 25 ≤ CAM_ISP_SFE_CTX_CFG_MAX) :=
  ⟨by decide, ctx_cfg_max_bounds 25 (by decide)⟩

open cam_isp_hw_mgr_command in
/-- C5: `enum cam_isp_hw_mgr_command` has exactly twelve commands, every
enumerator but `CAM_ISP_HW_MGR_CMD_MAX`; the codes of the enumerators are
pairwise distinct, the commands have the codes 0 to 11 in declaration order,
every command code is strictly below `CAM_ISP_HW_MGR_CMD_MAX`, and
`CAM_ISP_HW_MGR_CMD_MAX` equals the number of commands. -/
theorem hw_mgr_command_set :
    commands.length = 12 ∧
    commands.Nodup ∧
    (∀ c : cam_isp_hw_mgr_command, c ∈ commands ↔ c ≠ CAM_ISP_HW_MGR_CMD_MAX) ∧
    (∀ a b : cam_isp_hw_mgr_command, a.val = b.val → a = b) ∧
    commands.map val = List.range 12 ∧
    (∀ c : cam_isp_hw_mgr_command, c ∈ commands → c.val < CAM_ISP_HW_MGR_CMD_MAX.val) ∧
    CAM_ISP_HW_MGR_CMD_MAX.val = commands.length := by
  refine ⟨rfl, by decide, ?_, ?_, rfl, ?_, rfl⟩
  · intro c
    cases c <;> decide
  · intro a b
    cases a <;> cases b <;> first | (intro _; rfl) | (intro h; exact absurd h (by decide))
  · intro c
    cases c <;> decide

open cam_isp_hw_event_type in
/-- C9 on the code: `CAM_ISP_HW_SECONDARY_EVENT` is an enumerator of
`enum cam_isp_hw_event_type` below `CAM_ISP_HW_EVENT_MAX`, and
`cam_isp_hw_evt_type_to_string` returns "INVALID_EVT" for it. The function
returns "INVALID_EVT" exactly for the arguments above `CAM_ISP_HW_EVENT_DONE`,
so for the event kind SECONDARY as for `CAM_ISP_HW_EVENT_MAX` and every integer
that is no enumerator. -/
theorem evt_type_to_string_secondary_invalid :
    CAM_ISP_HW_SECONDARY_EVENT ∈ enumerators ∧
    CAM_ISP_HW_SECONDARY_EVENT.val < CAM_ISP_HW_EVENT_MAX.val ∧
    cam_isp_hw_evt_type_to_string CAM_ISP_HW_SECONDARY_EVENT.val = "INVALID_EVT" ∧
    (∀ evt_type : Nat, cam_isp_hw_evt_type_to_string evt_type = "INVALID_EVT" ↔
      CAM_ISP_HW_EVENT_DONE.val < evt_type) := by
  refine ⟨by decide, by decide, rfl, ?_⟩
  intro evt_type
  unfold cam_isp_hw_evt_type_to_string
  simp only [val]
  split_ifs <;> simp <;> omega

/-- C10 on the code: `rdi_hz` has `CAM_IFE_RDI_NUM_MAX` = 4 entries in every
clock configuration, the one of the SFE included, and an SFE has up to
`CAM_SFE_RDI_NUM_MAX` = 5 RDIs. In a record whose `sfe_clock_config` votes for
5 RDIs, index 4 is below `num_rdi` and addresses no entry of `rdi_hz`. -/
theorem sfe_clock_config_rdi_hz_too_short :
    (∀ (cfg : cam_isp_clock_config_internal) (i : Nat),
      (cfg.rdi_hz.get? i).isSome = true ↔ i < CAM_IFE_RDI_NUM_MAX) ∧
    CAM_IFE_RDI_NUM_MAX = 4 ∧ CAM_SFE_RDI_NUM_MAX = 5 ∧
    bw_clk_config_sfe_max_rdi.sfe_clock_config.num_rdi = CAM_SFE_RDI_NUM_MAX ∧
    4 < bw_clk_config_sfe_max_rdi.sfe_clock_config.num_rdi ∧
    bw_clk_config_sfe_max_rdi.sfe_clock_config.rdi_hz.get? 4 = none := by
  refine ⟨?_, rfl, rfl, rfl, by decide, rfl⟩
  intro cfg i
  exact c_array.get?_isSome_iff cfg.rdi_hz i

/-! ### Bandwidth and clock votes -/

/-- Apply changes nothing when no vote is pending. -/
theorem apply_of_not_pending {bw_vote axi_vote : Type} (ctx : admission_ctx bw_vote axi_vote)
    (h : ctx.vote_pending = false) : apply ctx = ctx := by
  unfold apply
  rw [h]
  rfl

/-- Apply moves a pending vote to the active configuration and clears the
valid flags of the staged record. -/
theorem apply_of_pending {bw_vote axi_vote : Type} (ctx : admission_ctx bw_vote axi_vote)
    (h : ctx.vote_pending = true) :
    apply ctx =
      { staged := clear_valid ctx.staged, active := ctx.staged, vote_pending := false } := by
  unfold apply
  rw [h]
  rfl

/-- A vote within the supported number of paths is recorded as given. -/
theorem stage_of_le {bw_vote axi_vote : Type} (ctx : admission_ctx bw_vote axi_vote)
    (vote : cam_isp_bw_clk_config_info bw_vote axi_vote)
    (h : vote.bw_config_v2.num_paths ≤ CAM_ISP_MAX_PER_PATH_VOTES) :
    stage ctx vote = (.ok, { ctx with staged := vote, vote_pending := true }) := by
  unfold stage
  rw [if_neg (Nat.not_lt.mpr h)]

/-- C7: staging a vote whose `num_paths` exceeds `CAM_ISP_MAX_PER_PATH_VOTES`
= 40, the length of `axi_path`, fails with capacity-exceeded and returns the
context as it was, the staged and the active vote unchanged; and in every vote
with `num_paths` at most the maximum, every path index below `num_paths`
addresses an entry of `axi_path`. -/
theorem stage_capacity_exceeded {bw_vote axi_vote : Type}
    (ctx : admission_ctx bw_vote axi_vote)
    (vote : cam_isp_bw_clk_config_info bw_vote axi_vote) (i : Nat) :
    CAM_ISP_MAX_PER_PATH_VOTES = 40 ∧
    vote.bw_config_v2.axi_path.elems.length = CAM_ISP_MAX_PER_PATH_VOTES ∧
    (CAM_ISP_MAX_PER_PATH_VOTES < vote.bw_config_v2.num_paths →
      stage ctx vote = (.capacity_exceeded, ctx) ∧
      (stage ctx vote).2.staged = ctx.staged ∧ (stage ctx vote).2.active = ctx.active) ∧
    (vote.bw_config_v2.num_paths ≤ CAM_ISP_MAX_PER_PATH_VOTES →
      i < vote.bw_config_v2.num_paths →
      (vote.bw_config_v2.axi_path.get? i).isSome = true) := by
  refine ⟨rfl, vote.bw_config_v2.axi_path.size_eq, ?_, ?_⟩
  · intro h
    have hs : stage ctx vote = (.capacity_exceeded, ctx) := by
      unfold stage
      rw [if_pos h]
    rw [hs]
    exact ⟨rfl, rfl, rfl⟩
  · intro h hi
    exact (c_array.get?_isSome_iff _ i).mpr (Nat.lt_of_lt_of_le hi h)

/-- C7 at concrete votes: over an active vote of 3 paths, a vote of 41 paths is
refused and the context stays as it was; in a vote of 40 paths the last path
index, 39, addresses an entry of `axi_path`. -/
theorem stage_capacity_exceeded_witness :
    (stage { staged := bw_clk_config_with_paths 0, active := bw_clk_config_with_paths 3 }
        (bw_clk_config_with_paths 41) =
      (.capacity_exceeded,
        { staged := bw_clk_config_with_paths 0, active := bw_clk_config_with_paths 3 })) ∧
    ((bw_clk_config_with_paths 40).bw_config_v2.axi_path.get? 39).isSome = true :=
  ⟨((stage_capacity_exceeded
      { staged := bw_clk_config_with_paths 0, active := bw_clk_config_with_paths 3 }
      (bw_clk_config_with_paths 41) 0).2.2.1 (by decide)).1,
   (stage_capacity_exceeded
      { staged := bw_clk_config_with_paths 0, active := bw_clk_config_with_paths 0 }
      (bw_clk_config_with_paths 40) 39).2.2.2 (by decide) (by decide)⟩

/-- Stage succeeds only on a vote within the supported number of paths. -/
theorem le_of_stage_ok {bw_vote axi_vote : Type} (ctx : admission_ctx bw_vote axi_vote)
    (vote : cam_isp_bw_clk_config_info bw_vote axi_vote)
    (h : (stage ctx vote).1 = hw_mgr_status.ok) :
    vote.bw_config_v2.num_paths ≤ CAM_ISP_MAX_PER_PATH_VOTES := by
  by_contra hgt
  unfold stage at h
  rw [if_pos (Nat.lt_of_not_le hgt)] at h
  exact hw_mgr_status.noConfusion h

/-- C8: for every context and every vote, a successful stage followed
immediately by apply yields an active vote equal to the staged vote, the vote
exactly as given, and clears the three valid flags (`bw_config_valid`,
`ife_clock_config_valid`, `sfe_clock_config_valid`) of the staged record,
after which no vote is pending. Stage succeeds on every vote of at most
`CAM_ISP_MAX_PER_PATH_VOTES` paths. Apply with nothing staged leaves the
context, and so the previously active vote, unchanged; and apply is
idempotent. -/
theorem stage_then_apply {bw_vote axi_vote : Type}
    (ctx : admission_ctx bw_vote axi_vote)
    (vote : cam_isp_bw_clk_config_info bw_vote axi_vote) :
    ((stage ctx vote).1 = hw_mgr_status.ok →
      (stage ctx vote).2.staged = vote ∧
      (apply (stage ctx vote).2).active = (stage ctx vote).2.staged ∧
      (apply (stage ctx vote).2).active = vote ∧
      (apply (stage ctx vote).2).staged = clear_valid vote ∧
      (apply (stage ctx vote).2).staged.bw_config_valid = false ∧
      (apply (stage ctx vote).2).staged.ife_clock_config_valid = false ∧
      (apply (stage ctx vote).2).staged.sfe_clock_config_valid = false ∧
      (apply (stage ctx vote).2).vote_pending = false) ∧
    (vote.bw_config_v2.num_paths ≤ CAM_ISP_MAX_PER_PATH_VOTES →
      (stage ctx vote).1 = hw_mgr_status.ok) ∧
    (ctx.vote_pending = false →
      apply ctx = ctx ∧ (apply ctx).active = ctx.active) ∧
    apply (apply ctx) = apply ctx := by
  refine ⟨?_, ?_, ?_, ?_⟩
  · intro hok
    have h := le_of_stage_ok ctx vote hok
    rw [stage_of_le ctx vote h, apply_of_pending _ rfl]
    exact ⟨rfl, rfl, rfl, rfl, rfl, rfl, rfl, rfl⟩
  · intro h
    rw [stage_of_le ctx vote h]
  · intro h
    rw [apply_of_not_pending ctx h]
    exact ⟨rfl, rfl⟩
  · cases h : ctx.vote_pending
    · rw [apply_of_not_pending ctx h, apply_of_not_pending ctx h]
    · rw [apply_of_pending ctx h]
      exact apply_of_not_pending _ rfl

/-- C8 at concrete votes, over an active vote of 3 paths with nothing staged:
staging a vote of 2 paths that marks nothing valid succeeds and applying makes
it, as given, the active vote; so does a vote of 2 paths that marks only the
bandwidth valid, and the bandwidth flag of the staged record is cleared. -/
theorem stage_then_apply_witness :
    (stage { staged := bw_clk_config_with_paths 0, active := bw_clk_config_with_paths 3 }
        (bw_clk_config_with_paths 2)).1 = hw_mgr_status.ok ∧
    (apply (stage { staged := bw_clk_config_with_paths 0,
                    active := bw_clk_config_with_paths 3 }
                  (bw_clk_config_with_paths 2)).2).active = bw_clk_config_with_paths 2 ∧
    (apply (stage { staged := bw_clk_config_with_paths 0,
                    active := bw_clk_config_with_paths 3 }
                  (bw_only_config_with_paths 2)).2).active = bw_only_config_with_paths 2 ∧
    (bw_only_config_with_paths 2).bw_config_valid = true ∧
    (apply (stage { staged := bw_clk_config_with_paths 0,
                    active := bw_clk_config_with_paths 3 }
                  (bw_only_config_with_paths 2)).2).staged.bw_config_valid = false :=
  ⟨rfl,
   ((stage_then_apply
      { staged := bw_clk_config_with_paths 0, active := bw_clk_config_with_paths 3 }
      (bw_clk_config_with_paths 2)).1 rfl).2.2.1,
   ((stage_then_apply
      { staged := bw_clk_config_with_paths 0, active := bw_clk_config_with_paths 3 }
      (bw_only_config_with_paths 2)).1 rfl).2.2.1,
   rfl,
   ((stage_then_apply
      { staged := bw_clk_config_with_paths 0, active := bw_clk_config_with_paths 3 }
      (bw_only_config_with_paths 2)).1 rfl).2.2.2.2.1⟩

/-! ### Acquiring hardware-line instances -/

/-- The instance that `free_instance` finds is below the family's maximum and
not bound. -/
theorem free_instance_some {fam : hw_family} {bound : List (Nat × Nat)} {i : Nat}
    (h : free_instance fam bound = some i) :
    i < fam.num_max ∧ i ∉ bound.map Prod.fst := by
  unfold free_instance at h
  have hmem := List.mem_of_find?_eq_some h
  have hp := List.find?_some h
  refine ⟨List.mem_range.mp hmem, ?_⟩
  intro hin
  have hc : (bound.map Prod.fst).contains i = true := List.elem_eq_true_of_mem hin
  rw [hc] at hp
  exact Bool.noConfusion hp

/-- When `free_instance` finds nothing, every instance of the family is
bound. -/
theorem free_instance_none {fam : hw_family} {bound : List (Nat × Nat)}
    (h : free_instance fam bound = none) :
    ∀ i, i < fam.num_max → i ∈ bound.map Prod.fst := by
  unfold free_instance at h
  intro i hi
  have hall := List.find?_eq_none.mp h i (List.mem_range.mpr hi)
  have hc : (bound.map Prod.fst).contains i = true := by
    cases hb : (bound.map Prod.fst).contains i
    · rw [hb] at hall; exact absurd rfl hall
    · rfl
  exact List.mem_of_elem_eq_true hc

/-- Well-formed bindings never exceed the family's maximum instance count. -/
theorem bound_ok_length_le {fam : hw_family} {bound : List (Nat × Nat)}
    (h : bound_ok fam bound) : bound.length ≤ fam.num_max := by
  have hsub : (bound.map Prod.fst).toFinset ⊆ Finset.range fam.num_max := by
    intro i hi
    exact Finset.mem_range.mpr (h.2 i (List.mem_toFinset.mp hi))
  have hcard := Finset.card_le_card hsub
  rw [List.toFinset_card_of_nodup h.1, List.length_map, Finset.card_range] at hcard
  exact hcard

/-- At capacity every instance of the family is bound, so none is free. -/
theorem free_instance_of_full {fam : hw_family} {bound : List (Nat × Nat)}
    (h : bound_ok fam bound) (hfull : bound.length = fam.num_max) :
    free_instance fam bound = none := by
  have hsub : (bound.map Prod.fst).toFinset ⊆ Finset.range fam.num_max := by
    intro i hi
    exact Finset.mem_range.mpr (h.2 i (List.mem_toFinset.mp hi))
  have hcard : (Finset.range fam.num_max).card ≤ (bound.map Prod.fst).toFinset.card := by
    rw [List.toFinset_card_of_nodup h.1, List.length_map, Finset.card_range, hfull]
  have heq := Finset.eq_of_subset_of_card_le hsub hcard
  cases hf : free_instance fam bound with
  | none => rfl
  | some i =>
    have hi := free_instance_some hf
    have hmem : i ∈ (bound.map Prod.fst).toFinset := by
      rw [heq]; exact Finset.mem_range.mpr hi.1
    exact absurd (List.mem_toFinset.mp hmem) hi.2

/-- Below capacity some instance of the family is free. -/
theorem free_instance_of_not_full {fam : hw_family} {bound : List (Nat × Nat)}
    (hlt : bound.length < fam.num_max) :
    ∃ i, free_instance fam bound = some i := by
  cases hf : free_instance fam bound with
  | some i => exact ⟨i, rfl⟩
  | none =>
    exfalso
    have hall := free_instance_none hf
    have hsub : Finset.range fam.num_max ⊆ (bound.map Prod.fst).toFinset := by
      intro i hi
      exact List.mem_toFinset.mpr (hall i (Finset.mem_range.mp hi))
    have hcard := Finset.card_le_card hsub
    have hle := List.toFinset_card_le (bound.map Prod.fst)
    rw [Finset.card_range] at hcard
    rw [List.length_map] at hle
    omega

/-- An acquire call keeps the bindings of every family well formed. -/
theorem acquire_bound_ok (st : hw_mgr_state) (fam : hw_family) (ctx : Nat)
    (h : ∀ f, bound_ok f (st.bound f)) :
    ∀ f, bound_ok f ((acquire st fam ctx).2.bound f) := by
  intro f
  unfold acquire
  cases hf : free_instance fam (st.bound fam) with
  | none => exact h f
  | some i =>
    have hi := free_instance_some hf
    by_cases hfam : f = fam
    · subst hfam
      simp only [Function.update_same]
      refine ⟨?_, ?_⟩
      · rw [List.map_cons]
        exact List.nodup_cons.mpr ⟨hi.2, (h f).1⟩
      · intro j hj
        rw [List.map_cons, List.mem_cons] at hj
        cases hj with
        | inl hj => rw [hj]; exact hi.1
        | inr hj => exact (h f).2 j hj
    · simp only [Function.update_noteq hfam]
      exact h f

/-- A sequence of acquire calls keeps the bindings of every family well
formed. -/
theorem acquire_seq_bound_ok (calls : List (hw_family × Nat)) (st : hw_mgr_state)
    (h : ∀ f, bound_ok f (st.bound f)) :
    ∀ f, bound_ok f ((acquire_seq st calls).bound f) := by
  induction calls generalizing st with
  | nil => exact h
  | cons c cs ih =>
    obtain ⟨fam, ctx⟩ := c
    exact ih (acquire st fam ctx).2 (acquire_bound_ok st fam ctx h)

/-- The bindings of the idle state are well formed. -/
theorem idle_bound_ok : ∀ f, bound_ok f (hw_mgr_state.idle.bound f) := by
  intro f
  exact ⟨List.nodup_nil, fun i hi => absurd hi (List.not_mem_nil i)⟩

/-- C6: the maximum instance counts are 8 for IFE, 2 for SFE and 3 for TFE, and
after every sequence of acquire calls from the idle state the number of
concurrently bound instances of a family is at most the family's maximum. An
acquire issued when the family is at capacity fails with resource-exhausted and
leaves the state as it was; below capacity it succeeds and binds one more
instance. -/
theorem acquire_within_capacity (calls : List (hw_family × Nat)) (fam : hw_family) :
    CAM_IFE_HW_NUM_MAX = 8 ∧ CAM_SFE_HW_NUM_MAX = 2 ∧ CAM_TFE_HW_NUM_MAX = 3 ∧
    (acquire_seq hw_mgr_state.idle calls).num_bound fam ≤ fam.num_max ∧
    ((acquire_seq hw_mgr_state.idle calls).num_bound fam = fam.num_max →
      ∀ ctx : Nat, acquire (acquire_seq hw_mgr_state.idle calls) fam ctx =
        (.resource_exhausted, acquire_seq hw_mgr_state.idle calls)) ∧
    ((acquire_seq hw_mgr_state.idle calls).num_bound fam < fam.num_max →
      ∀ ctx : Nat, (acquire (acquire_seq hw_mgr_state.idle calls) fam ctx).1 = .ok ∧
        (acquire (acquire_seq hw_mgr_state.idle calls) fam ctx).2.num_bound fam =
          (acquire_seq hw_mgr_state.idle calls).num_bound fam + 1) := by
  have hok := acquire_seq_bound_ok calls hw_mgr_state.idle idle_bound_ok
  refine ⟨rfl, rfl, rfl, bound_ok_length_le (hok fam), ?_, ?_⟩
  · intro hfull ctx
    unfold acquire
    rw [free_instance_of_full (hok fam) hfull]
  · intro hlt ctx
    obtain ⟨i, hi⟩ := free_instance_of_not_full hlt
    unfold acquire
    rw [hi]
    refine ⟨rfl, ?_⟩
    simp [hw_mgr_state.num_bound]

/-- C6 at a concrete sequence: after three acquire calls for the SFE family,
whose maximum is 2, two instances are bound, and a further acquire fails with
resource-exhausted. -/
theorem acquire_within_capacity_witness :
    (acquire_seq hw_mgr_state.idle
        [(hw_family.SFE, 1), (hw_family.SFE, 2), (hw_family.SFE, 3)]).num_bound hw_family.SFE
      = 2 ∧
    (acquire (acquire_seq hw_mgr_state.idle
        [(hw_family.SFE, 1), (hw_family.SFE, 2), (hw_family.SFE, 3)]) hw_family.SFE 4).1
      = hw_mgr_status.resource_exhausted :=
  ⟨by decide,
   by rw [(acquire_within_capacity
        [(hw_family.SFE, 1), (hw_family.SFE, 2), (hw_family.SFE, 3)] hw_family.SFE).2.2.2.2.1
        (by decide)]⟩

end CamIsp
